import Mathlib

/-!
# Verification of the `streamutil` buffered dispatch engines

Shallow embedding of the `streamutil` Go package: the callback (observer)
contract, the buffered read and write engines (`BufferedReader`,
`BufferedWriter`) including the `bufio.Reader`/`bufio.Writer` internals they
delegate to, the `Reader`/`Writer`/`TeeReader` facade, and the hash callback
constructor. Go's mutable state is passed explicitly; machine integers are
`Nat`/`Int`; `error` values are the inductive `GoErr` (identity modelled
structurally); panics are modelled as a distinguished callback outcome that
the dispatch boundary converts to an error, exactly as the `recover` block in
the source does. Each engine operation additionally returns the list of
observer invocations it performed (the dispatch trace: which callback index
received which chunk), which makes "callback was / was not invoked with this
chunk" statable.
-/

namespace Streamutil

/-- A chunk of bytes (`[]byte`); byte values are `Nat`. -/
abbrev Chunk := List Nat

/-- Go `error` values. `errNew msg` is `errors.New(msg)`; `custom tag msg`
stands for any other distinct error value with message `msg` (the `tag`
separates errors whose messages coincide); `eof` is `io.EOF` and
`shortWrite` is `io.ErrShortWrite`. -/
inductive GoErr where
  | eof
  | shortWrite
  | errNew (msg : String)
  | custom (tag : Nat) (msg : String)
  deriving DecidableEq, Repr

/-- The `Error()` method: the message a Go error value reports. -/
def GoErr.message : GoErr → String
  | .eof => "EOF"
  | .shortWrite => "short write"
  | .errNew m => m
  | .custom _ m => m

/-- A panic payload (`recover()`'s result): an error value, a string, or
anything else (`formatPanic`'s three type-switch cases). -/
inductive PanicPayload where
  | errVal (e : GoErr)
  | strVal (s : String)
  | otherVal
  deriving DecidableEq, Repr

/-- `formatPanic`: error payloads report their message, string payloads are
used verbatim, and anything else becomes `"unknown panic"`. -/
def formatPanic : PanicPayload → String
  | .errVal e => e.message
  | .strVal s => s
  | .otherVal => "unknown panic"

/-- Outcome of one `OnData` invocation: normal return of `nil`, normal return
of an error, or abnormal termination with a panic payload. -/
inductive CbRes where
  | ok
  | err (e : GoErr)
  | panicked (p : PanicPayload)
  deriving DecidableEq, Repr

/-- Supported hash algorithms of `NewHashCallback`. -/
inductive HashAlg where
  | md5
  | sha1
  | sha256
  | sha512
  deriving DecidableEq, Repr

/-- Go `any` values appearing as callback results. `digestOf alg input`
models the stdlib digest `alg(input)` symbolically (the hash functions are
outside this repository). -/
inductive GoVal where
  | nil
  | digestOf (alg : HashAlg) (input : Chunk)
  | intVal (i : Int)
  | strVal (s : String)
  deriving DecidableEq, Repr

/-- The `ReadCallback` / `WriteCallback` interface over a callback state
type `κ`: `Name()`, `OnData(chunk)`, `Result()`. Methods take the receiver
state; `onData` returns the updated state together with its outcome. -/
structure Callback (κ : Type) where
  name : κ → String
  onData : κ → Chunk → κ × CbRes
  result : κ → GoVal

/-- A callback instance: its interface (method table) plus current state. -/
structure CbInst (κ : Type) where
  ifc : Callback κ
  st : κ

/-- The shared dispatch loop of both engines, with the running index `i`:
invoke each callback in order with `chunk`; stop at the first callback that
returns an error; a panic is caught at this boundary (the source's deferred
`recover`) and converted to `errors.New("callback panic: " ++ formatPanic r)`.
Also returns the invocation trace: `(index, chunk)` for each callback that
was actually invoked. -/
def dispatchFrom {κ : Type} :
    List (CbInst κ) → Chunk → Nat → List (CbInst κ) × Option GoErr × List (Nat × Chunk)
  | [], _, _ => ([], none, [])
  | c :: rest, chunk, i =>
    match c.ifc.onData c.st chunk with
    | (s', .ok) =>
      let r := dispatchFrom rest chunk (i + 1)
      ({ c with st := s' } :: r.1, r.2.1, (i, chunk) :: r.2.2)
    | (s', .err e) => ({ c with st := s' } :: rest, some e, [(i, chunk)])
    | (s', .panicked p) =>
      ({ c with st := s' } :: rest,
        some (.errNew ("callback panic: " ++ formatPanic p)), [(i, chunk)])

/-- `dispatch` of both engines (`BufferedReader.dispatch`,
`BufferedWriter.dispatch`). -/
def dispatch {κ : Type} (cbs : List (CbInst κ)) (chunk : Chunk) :
    List (CbInst κ) × Option GoErr × List (Nat × Chunk) :=
  dispatchFrom cbs chunk 0

/-- How many callbacks a dispatch of `chunk` invokes: all of them up to and
including the first one that fails. -/
def dispatchCount {κ : Type} : List (CbInst κ) → Chunk → Nat
  | [], _ => 0
  | c :: rest, chunk =>
    match c.ifc.onData c.st chunk with
    | (_, .ok) => dispatchCount rest chunk + 1
    | (_, .err _) => 1
    | (_, .panicked _) => 1

/-- An `io.Reader` (with its optional `io.ReaderAt` capability) over stream
state `σ`: `read s n` models `Read(p)` with `len(p) = n` and returns the new
stream state, the bytes delivered, and the error. -/
structure SourceI (σ : Type) where
  read : σ → Nat → σ × Chunk × Option GoErr
  readAt : Option (σ → Nat → Int → σ × Chunk × Option GoErr)

/-- An `io.Writer` (with optional `io.WriterAt` / `io.Closer` capabilities)
over stream state `σ`: `write s p` returns the new state, bytes accepted,
and the error. -/
structure SinkI (σ : Type) where
  write : σ → Chunk → σ × Nat × Option GoErr
  writeAt : Option (σ → Chunk → Int → σ × Nat × Option GoErr)
  close : Option (σ → σ × Option GoErr)

/-- Internal state of a `bufio.Reader`: the currently buffered bytes
(`b.buf[b.r:b.w]`), the buffer capacity (`len(b.buf)`), and the one cached
read error (`b.err`, cleared when reported). -/
structure BufioR where
  contents : Chunk
  size : Nat
  err : Option GoErr
  deriving Repr

/-- `bufio.Reader.Read(p)` with `len(p) = plen`: serve buffered bytes if any;
otherwise read through for large requests, or fill the buffer with one
underlying read and serve from it. The underlying error is reported (and
cleared) when no bytes can be served. -/
def bufioRead {σ : Type} (rd : SourceI σ) (b : BufioR) (s : σ) (plen : Nat) :
    BufioR × σ × Chunk × Option GoErr :=
  if plen = 0 then
    if 0 < b.contents.length then (b, s, [], none)
    else ({ b with err := none }, s, [], b.err)
  else if b.contents.length = 0 then
    if b.err.isSome then ({ b with err := none }, s, [], b.err)
    else if b.size ≤ plen then
      -- large read, empty buffer: read directly into p
      match rd.read s plen with
      | (s', data, e) => ({ b with err := none }, s', data, e)
    else
      -- one read to fill the internal buffer, then copy out
      match rd.read s b.size with
      | (s', data, e) =>
        if data.length = 0 then ({ b with err := none }, s', [], e)
        else
          let n := min plen data.length
          ({ b with contents := data.drop n, err := e }, s', data.take n, none)
  else
    let n := min plen b.contents.length
    ({ b with contents := b.contents.drop n }, s, b.contents.take n, none)

/-- `BufferedReader`: the underlying source (whose optional `ReaderAt`
capability was captured at construction), its stream state, the internal
`bufio.Reader`, the callbacks, and the sticky error slot. -/
structure BufferedReader (σ κ : Type) where
  src : SourceI σ
  srcSt : σ
  buf : BufioR
  callbacks : List (CbInst κ)
  err : Option GoErr

/-- `NewReader`: a `BufferedReader` with an internal 32 KiB buffer. -/
def NewReader {σ κ : Type} (r : SourceI σ) (s : σ) (cbs : List (CbInst κ)) :
    BufferedReader σ κ :=
  { src := r, srcSt := s
    buf := { contents := [], size := 32 * 1024, err := none }
    callbacks := cbs, err := none }

/-- Result of one read-engine operation: the updated engine, the bytes
delivered to the caller (`p[:n]`), the returned error, and the dispatch
trace of the operation. -/
structure ReadOut (σ κ : Type) where
  eng : BufferedReader σ κ
  data : Chunk
  err : Option GoErr
  trace : List (Nat × Chunk)

/-- `BufferedReader.Read`: sticky short-circuit, buffered read, then
dispatch of `p[:n]` when `n > 0` and callbacks exist; a dispatch error is
remembered (sticky) and returned alongside the bytes already read. -/
def BufferedReader.Read {σ κ : Type} (br : BufferedReader σ κ) (plen : Nat) :
    ReadOut σ κ :=
  match br.err with
  | some e => ⟨br, [], some e, []⟩
  | none =>
    match bufioRead br.src br.buf br.srcSt plen with
    | (b', s', data, ioErr) =>
      let br1 : BufferedReader σ κ := { br with buf := b', srcSt := s' }
      if 0 < data.length ∧ 0 < br.callbacks.length then
        match dispatch br1.callbacks data with
        | (cbs', some cbErr, tr) =>
          ⟨{ br1 with callbacks := cbs', err := some cbErr }, data, some cbErr, tr⟩
        | (cbs', none, tr) => ⟨{ br1 with callbacks := cbs' }, data, ioErr, tr⟩
      else ⟨br1, data, ioErr, []⟩

/-- `BufferedReader.ReadAt`: fails with `errors.New("ReadAt not supported")`
when the capability is absent; otherwise sticky short-circuit, positional
read, and the same dispatch as `Read`. -/
def BufferedReader.ReadAt {σ κ : Type} (br : BufferedReader σ κ)
    (plen : Nat) (off : Int) : ReadOut σ κ :=
  match br.src.readAt with
  | none => ⟨br, [], some (.errNew "ReadAt not supported"), []⟩
  | some ra =>
    match br.err with
    | some e => ⟨br, [], some e, []⟩
    | none =>
      match ra br.srcSt plen off with
      | (s', data, ioErr) =>
        let br1 : BufferedReader σ κ := { br with srcSt := s' }
        if 0 < data.length ∧ 0 < br.callbacks.length then
          match dispatch br1.callbacks data with
          | (cbs', some cbErr, tr) =>
            ⟨{ br1 with callbacks := cbs', err := some cbErr }, data, some cbErr, tr⟩
          | (cbs', none, tr) => ⟨{ br1 with callbacks := cbs' }, data, ioErr, tr⟩
        else ⟨br1, data, ioErr, []⟩

/-- `BufferedReader.Results`: the `(Name(), Result())` pairs, in callback
order, that the engine writes into its `map[string]any`. -/
def BufferedReader.Results {σ κ : Type} (br : BufferedReader σ κ) :
    List (String × GoVal) :=
  br.callbacks.map fun c => (c.ifc.name c.st, c.ifc.result c.st)

/-- Looking up `k` in the Go map built by inserting the pairs of `l` in
order: a later insert for the same key overwrites an earlier one. -/
def goMapGet (l : List (String × GoVal)) (k : String) : Option GoVal :=
  l.foldl (fun acc p => if p.1 = k then some p.2 else acc) none

/-- Internal state of a `bufio.Writer`: the buffered bytes (`b.buf[0:b.n]`),
the buffer capacity, and its own cached write error (`b.err`, permanent). -/
structure BufioW where
  contents : Chunk
  size : Nat
  err : Option GoErr
  deriving Repr

/-- `bufio.Writer.Flush`: report a cached error; otherwise write the
buffered bytes to the sink, turning a silent short write into
`io.ErrShortWrite`, and cache any failure. -/
def bufioFlush {σ : Type} (wr : SinkI σ) (b : BufioW) (s : σ) :
    BufioW × σ × Option GoErr :=
  match b.err with
  | some e => (b, s, some e)
  | none =>
    if b.contents.length = 0 then (b, s, none)
    else
      match wr.write s b.contents with
      | (s', n, werr) =>
        let werr' :=
          if n < b.contents.length ∧ werr = none then some GoErr.shortWrite else werr
        match werr' with
        | some e => ({ b with contents := b.contents.drop n, err := some e }, s', some e)
        | none => ({ b with contents := [] }, s', none)

/-- The loop of `bufio.Writer.Write`: while `p` does not fit in the free
space and no error is cached, either write `p` directly to the sink (empty
buffer) or top the buffer up and flush; afterwards report a cached error or
copy the remainder into the buffer. `fuel` bounds the iterations (Go's loop
terminates for any sink that makes progress or errors; every call below
supplies more fuel than that needs). -/
def bufioWriteLoop {σ : Type} (wr : SinkI σ) :
    Nat → BufioW → σ → Chunk → Nat → BufioW × σ × Nat × Option GoErr
  | 0, b, s, _, nn => (b, s, nn, b.err)
  | fuel + 1, b, s, p, nn =>
    if b.size - b.contents.length < p.length ∧ b.err = none then
      if b.contents.length = 0 then
        match wr.write s p with
        | (s', n, werr) => bufioWriteLoop wr fuel { b with err := werr } s' (p.drop n) (nn + n)
      else
        let n := min (b.size - b.contents.length) p.length
        let b1 : BufioW := { b with contents := b.contents ++ p.take n }
        match bufioFlush wr b1 s with
        | (b2, s', _) => bufioWriteLoop wr fuel b2 s' (p.drop n) (nn + n)
    else
      match b.err with
      | some e => (b, s, nn, some e)
      | none => ({ b with contents := b.contents ++ p }, s, nn + p.length, none)

/-- `bufio.Writer.Write(p)`. -/
def bufioWrite {σ : Type} (wr : SinkI σ) (b : BufioW) (s : σ) (p : Chunk) :
    BufioW × σ × Nat × Option GoErr :=
  bufioWriteLoop wr (p.length + 2) b s p 0

/-- `BufferedWriter`: the underlying sink (with its optional `WriterAt` and
`Closer` capabilities captured at construction), its stream state, the
internal `bufio.Writer`, the callbacks, the sticky error slot, and the
atomic `closed` guard. -/
structure BufferedWriter (σ κ : Type) where
  dst : SinkI σ
  dstSt : σ
  buf : BufioW
  callbacks : List (CbInst κ)
  err : Option GoErr
  closed : Bool

/-- `NewWriter`: a `BufferedWriter` with an internal 32 KiB buffer. -/
def NewWriter {σ κ : Type} (w : SinkI σ) (s : σ) (cbs : List (CbInst κ)) :
    BufferedWriter σ κ :=
  { dst := w, dstSt := s
    buf := { contents := [], size := 32 * 1024, err := none }
    callbacks := cbs, err := none, closed := false }

/-- Result of one write-engine operation: the updated engine, the byte
count, the returned error, and the dispatch trace of the operation. -/
structure WriteOut (σ κ : Type) where
  eng : BufferedWriter σ κ
  n : Nat
  err : Option GoErr
  trace : List (Nat × Chunk)

/-- `BufferedWriter.Write`: sticky short-circuit, buffered write, then
dispatch of `p[:n]` when `n > 0` and callbacks exist; a dispatch error is
remembered (sticky) and returned alongside the accepted byte count. -/
def BufferedWriter.Write {σ κ : Type} (bw : BufferedWriter σ κ) (p : Chunk) :
    WriteOut σ κ :=
  match bw.err with
  | some e => ⟨bw, 0, some e, []⟩
  | none =>
    match bufioWrite bw.dst bw.buf bw.dstSt p with
    | (b', s', n, werr) =>
      let bw1 : BufferedWriter σ κ := { bw with buf := b', dstSt := s' }
      if 0 < n ∧ 0 < bw.callbacks.length then
        match dispatch bw1.callbacks (p.take n) with
        | (cbs', some cbErr, tr) =>
          ⟨{ bw1 with callbacks := cbs', err := some cbErr }, n, some cbErr, tr⟩
        | (cbs', none, tr) => ⟨{ bw1 with callbacks := cbs' }, n, werr, tr⟩
      else ⟨bw1, n, werr, []⟩

/-- `BufferedWriter.Flush`: sticky short-circuit; otherwise flush the
internal buffer and remember any flush error as the sticky error. -/
def BufferedWriter.Flush {σ κ : Type} (bw : BufferedWriter σ κ) :
    BufferedWriter σ κ × Option GoErr :=
  match bw.err with
  | some e => (bw, some e)
  | none =>
    match bufioFlush bw.dst bw.buf bw.dstSt with
    | (b', s', ferr) => ({ bw with buf := b', dstSt := s', err := ferr }, ferr)

/-- `BufferedWriter.WriteAt`: fails with `errors.New("WriteAt not
supported")` when the capability is absent; otherwise sticky short-circuit,
positional write bypassing the sequential buffer, and the same dispatch as
`Write`. -/
def BufferedWriter.WriteAt {σ κ : Type} (bw : BufferedWriter σ κ)
    (p : Chunk) (off : Int) : WriteOut σ κ :=
  match bw.dst.writeAt with
  | none => ⟨bw, 0, some (.errNew "WriteAt not supported"), []⟩
  | some wa =>
    match bw.err with
    | some e => ⟨bw, 0, some e, []⟩
    | none =>
      match wa bw.dstSt p off with
      | (s', n, werr) =>
        let bw1 : BufferedWriter σ κ := { bw with dstSt := s' }
        if 0 < n ∧ 0 < bw.callbacks.length then
          match dispatch bw1.callbacks (p.take n) with
          | (cbs', some cbErr, tr) =>
            ⟨{ bw1 with callbacks := cbs', err := some cbErr }, n, some cbErr, tr⟩
          | (cbs', none, tr) => ⟨{ bw1 with callbacks := cbs' }, n, werr, tr⟩
        else ⟨bw1, n, werr, []⟩

/-- `BufferedWriter.Results`: as on the read engine. -/
def BufferedWriter.Results {σ κ : Type} (bw : BufferedWriter σ κ) :
    List (String × GoVal) :=
  bw.callbacks.map fun c => (c.ifc.name c.st, c.ifc.result c.st)

/-- Result of `Close`: the updated engine, the returned error, and whether
the underlying sink's `Close` was actually invoked. -/
structure CloseOut (σ κ : Type) where
  eng : BufferedWriter σ κ
  err : Option GoErr
  closedUnderlying : Bool

/-- `BufferedWriter.Close`: the compare-and-swap guard makes every call
after the first a no-op returning `nil`; the first call flushes (returning a
flush failure without attempting the sink's close) and then closes the
underlying sink if it is an `io.Closer`, propagating that error. -/
def BufferedWriter.Close {σ κ : Type} (bw : BufferedWriter σ κ) : CloseOut σ κ :=
  if bw.closed then ⟨bw, none, false⟩
  else
    match BufferedWriter.Flush { bw with closed := true } with
    | (bw1, some e) => ⟨bw1, some e, false⟩
    | (bw1, none) =>
      match bw1.dst.close with
      | some cl =>
        match cl bw1.dstSt with
        | (s', cerr) => ⟨{ bw1 with dstSt := s' }, cerr, true⟩
      | none => ⟨bw1, none, false⟩

/-- What the `Reader` facade returns: the original reader itself, or a
wrapping engine. -/
inductive ReaderRet (σ κ : Type) where
  | plain (r : SourceI σ) (s : σ)
  | wrapped (br : BufferedReader σ κ)

/-- What the `Writer` facade returns. -/
inductive WriterRet (σ κ : Type) where
  | plain (w : SinkI σ) (s : σ)
  | wrapped (bw : BufferedWriter σ κ)

/-- `Reader`: with no callbacks, return the original reader; otherwise wrap
it in a `BufferedReader`. -/
def Reader {σ κ : Type} (r : SourceI σ) (s : σ) (cbs : List (CbInst κ)) :
    ReaderRet σ κ :=
  if cbs.length = 0 then .plain r s else .wrapped (NewReader r s cbs)

/-- `Writer`: with no callbacks, return the original writer; otherwise wrap
it in a `BufferedWriter`. -/
def Writer {σ κ : Type} (w : SinkI σ) (s : σ) (cbs : List (CbInst κ)) :
    WriterRet σ κ :=
  if cbs.length = 0 then .plain w s else .wrapped (NewWriter w s cbs)

/-- State of a `teeWriterCallback`: the mirror sink's stream state and the
callback's own cached first write error (`errPtr`). -/
structure TeeSt (σw : Type) where
  wSt : σw
  errPtr : Option GoErr
  deriving DecidableEq

/-- `teeWriterCallback`: name `"_tee_writer"`, `Result()` of `nil`; `OnData`
returns the cached error if one is set, otherwise writes the chunk to the
mirror sink and caches (and returns) the first failure. The state type is
the sum used for a tee composition's callback list; the `inr` branches are
never reached by a tee instance (its state is always `inl`). -/
def teeWriterCallback {σw κ : Type} (w : SinkI σw) : Callback (TeeSt σw ⊕ κ) :=
  { name := fun _ => "_tee_writer"
    onData := fun st chunk =>
      match st with
      | .inl t =>
        match t.errPtr with
        | some e => (st, .err e)
        | none =>
          match w.write t.wSt chunk with
          | (s', _, some e) => (.inl ⟨s', some e⟩, .err e)
          | (s', _, none) => (.inl ⟨s', none⟩, .ok)
      | .inr _ => (st, .ok)
    result := fun _ => GoVal.nil }

/-- Lift a caller-supplied callback to the sum state type of a tee
composition (Go's interface values are heterogeneous; the sum plays that
role here). The `inl` branches are never reached by a lifted instance. -/
def liftCb {σw κ : Type} (c : Callback κ) : Callback (TeeSt σw ⊕ κ) :=
  { name := fun st => match st with | .inl _ => "" | .inr k => c.name k
    onData := fun st chunk =>
      match st with
      | .inl _ => (st, .ok)
      | .inr k => match c.onData k chunk with | (k', r) => (.inr k', r)
    result := fun st => match st with | .inl _ => GoVal.nil | .inr k => c.result k }

/-- Lift a caller-supplied callback instance to the tee composition. -/
def liftInst {σw κ : Type} (c : CbInst κ) : CbInst (TeeSt σw ⊕ κ) :=
  ⟨liftCb c.ifc, .inr c.st⟩

/-- `TeeReader`: build the mirror observer bound to the sink, prepend it to
the caller's callbacks, and delegate to `Reader`. -/
def TeeReader {σ σw κ : Type} (r : SourceI σ) (rs : σ) (w : SinkI σw) (ws : σw)
    (cbs : List (CbInst κ)) : ReaderRet σ (TeeSt σw ⊕ κ) :=
  let teeCallback : CbInst (TeeSt σw ⊕ κ) := ⟨teeWriterCallback w, .inl ⟨ws, none⟩⟩
  let allCallbacks := teeCallback :: cbs.map liftInst
  Reader r rs allCallbacks

/-- Modelled from the Go standard library: a `hash.Hash` as the algorithm it
computes plus the bytes written so far; `Sum(nil)` is the symbolic digest of
those bytes (the hash functions themselves are outside this repository). -/
structure GoHash where
  alg : HashAlg
  written : Chunk
  deriving DecidableEq, Repr

/-- `md5.New()` / `sha1.New()` / `sha256.New()` / `sha512.New()`. -/
def GoHash.new (a : HashAlg) : GoHash := ⟨a, []⟩

/-- `h.Write(chunk)` (never errors). -/
def GoHash.write (h : GoHash) (c : Chunk) : GoHash :=
  { h with written := h.written ++ c }

/-- `h.Sum(nil)`. -/
def GoHash.sum (h : GoHash) : GoVal := .digestOf h.alg h.written

/-- `HashCallback`: algorithm name plus the hash state. -/
structure HashCallback where
  name : String
  h : GoHash
  deriving DecidableEq, Repr

/-- `NewHashCallback`: the switch over the algorithm string; an unknown
algorithm falls back to SHA-256 and renames itself `"sha256"`. -/
def NewHashCallback (algorithm : String) : HashCallback :=
  match algorithm with
  | "md5" => ⟨algorithm, GoHash.new .md5⟩
  | "sha1" => ⟨algorithm, GoHash.new .sha1⟩
  | "sha256" => ⟨algorithm, GoHash.new .sha256⟩
  | "sha512" => ⟨algorithm, GoHash.new .sha512⟩
  | _ => ⟨"sha256", GoHash.new .sha256⟩

/-- `HashCallback.OnData`: write the chunk into the hash; always `nil`. -/
def HashCallback.OnData (hc : HashCallback) (chunk : Chunk) :
    HashCallback × CbRes :=
  ({ hc with h := hc.h.write chunk }, .ok)

/-- `HashCallback.Result`: `h.Sum(nil)`. -/
def HashCallback.Result (hc : HashCallback) : GoVal := hc.h.sum

/-- The `ReadCallback` interface of a `HashCallback`. -/
def hashCallbackI : Callback HashCallback :=
  { name := fun hc => hc.name
    onData := fun hc chunk => hc.OnData chunk
    result := fun hc => hc.Result }

/-- Feed a sequence of chunks through a `HashCallback`. -/
def feedHash (hc : HashCallback) (cs : List Chunk) : HashCallback :=
  cs.foldl (fun h c => (h.OnData c).1) hc

/-! ## Test fixtures (concrete streams and callbacks used by witnesses and
counterexamples) -/

/-- Fixture: a scripted source; each read pops the next `(chunk, error)`
response, and an exhausted script reports `io.EOF`. -/
def scriptedSource : SourceI (List (Chunk × Option GoErr)) :=
  { read := fun s _ =>
      match s with
      | [] => ([], [], some GoErr.eof)
      | r :: rest => (rest, r.1, r.2)
    readAt := none }

/-- Fixture: a recording callback whose state lists the chunks received. -/
def recorder : Callback (List Chunk) :=
  { name := fun _ => "rec"
    onData := fun st ch => (st ++ [ch], .ok)
    result := fun st => .intVal st.length }

/-- Fixture: a sink that rejects every write, counting the attempts in its
state. -/
def failingSink : SinkI Nat :=
  { write := fun s _ => (s + 1, 0, some (GoErr.custom 7 "sink failure"))
    writeAt := none, close := none }

/-- Fixture: a sink that accepts every write, and whose close bumps the
state by 100. -/
def closableSink : SinkI Nat :=
  { write := fun s p => (s + 1, p.length, none)
    writeAt := none
    close := some fun s => (s + 100, none) }

/-! ## Dispatch lemmas -/

/-- The trace of a dispatch is the indices `i, i+1, ...` of the invoked
callbacks, each paired with the dispatched chunk itself. -/
lemma dispatchFrom_trace {κ : Type} (cbs : List (CbInst κ)) (chunk : Chunk) :
    ∀ i, (dispatchFrom cbs chunk i).2.2 =
      (List.range (dispatchCount cbs chunk)).map fun j => (i + j, chunk) := by
  induction cbs with
  | nil => intro i; simp [dispatchFrom, dispatchCount]
  | cons c rest ih =>
    intro i
    rcases h : c.ifc.onData c.st chunk with ⟨s', res⟩
    cases res with
    | ok =>
      simp only [dispatchFrom, dispatchCount, h, ih (i + 1), List.range_succ_eq_map,
        List.map_cons, List.map_map, Nat.add_zero, List.cons.injEq, true_and]
      congr 1
      funext j
      simp only [Function.comp_apply, Prod.mk.injEq, and_true]
      omega
    | err e => simp [dispatchFrom, dispatchCount, h, List.range_succ]
    | panicked p => simp [dispatchFrom, dispatchCount, h, List.range_succ]

/-- A dispatch never invokes more callbacks than are registered. -/
lemma dispatchCount_le {κ : Type} (cbs : List (CbInst κ)) (chunk : Chunk) :
    dispatchCount cbs chunk ≤ cbs.length := by
  induction cbs with
  | nil => simp [dispatchCount]
  | cons c rest ih =>
    rcases h : c.ifc.onData c.st chunk with ⟨s', res⟩
    cases res with
    | ok => simpa [dispatchCount, h, Nat.succ_le_succ_iff] using ih
    | err e => simp [dispatchCount, h, List.length_cons]
    | panicked p => simp [dispatchCount, h, List.length_cons]

/-- A dispatch that reports no error invoked every registered callback. -/
lemma dispatchFrom_none_count {κ : Type} (cbs : List (CbInst κ)) (chunk : Chunk) :
    ∀ i, (dispatchFrom cbs chunk i).2.1 = none →
      dispatchCount cbs chunk = cbs.length := by
  induction cbs with
  | nil => intro i _; simp [dispatchCount]
  | cons c rest ih =>
    intro i hnone
    rcases h : c.ifc.onData c.st chunk with ⟨s', res⟩
    cases res with
    | ok =>
      simp only [dispatchFrom, h] at hnone
      simp [dispatchCount, h, ih (i + 1) hnone]
    | err e => simp [dispatchFrom, h] at hnone
    | panicked p => simp [dispatchFrom, h] at hnone

/-- A dispatch of a non-empty callback list invokes at least its first
callback: the trace is non-empty. -/
lemma dispatchFrom_trace_ne_nil {κ : Type} (c : CbInst κ) (rest : List (CbInst κ))
    (chunk : Chunk) (i : Nat) : (dispatchFrom (c :: rest) chunk i).2.2 ≠ [] := by
  rcases h : c.ifc.onData c.st chunk with ⟨s', res⟩
  cases res <;> simp [dispatchFrom, h]

/-- Callbacks that return `nil` pass dispatch on to the rest of the list. -/
lemma dispatchFrom_append_ok {κ : Type} (cbs₁ : List (CbInst κ)) (l : List (CbInst κ))
    (chunk : Chunk)
    (hok : ∀ inst ∈ cbs₁, (inst.ifc.onData inst.st chunk).2 = .ok) :
    ∀ i, (dispatchFrom (cbs₁ ++ l) chunk i).2.1 =
      (dispatchFrom l chunk (i + cbs₁.length)).2.1 := by
  induction cbs₁ with
  | nil => intro i; simp
  | cons c rest ih =>
    intro i
    rcases h : c.ifc.onData c.st chunk with ⟨s', res⟩
    have hres : res = .ok := by
      have := hok c (by simp)
      rw [h] at this; exact this
    subst hres
    have ihr := ih (fun inst hm => hok inst (by simp [hm])) (i + 1)
    simp only [List.cons_append, dispatchFrom, h, ihr, List.length_cons]
    have harith : i + 1 + rest.length = i + (rest.length + 1) := by omega
    rw [harith] at ihr
    exact ihr

/-- Fixture: a callback that panics with payload `p` on every chunk. -/
def panicker (p : PanicPayload) : Callback (List Chunk) :=
  { name := fun _ => "panicking"
    onData := fun st _ => (st, .panicked p)
    result := fun _ => .nil }

/-- Callbacks beyond the first failing one are left untouched by a
dispatch: their instances (hence their states) are unchanged. -/
lemma dispatchFrom_untouched {κ : Type} (cbs : List (CbInst κ)) (chunk : Chunk) :
    ∀ (i j : Nat), dispatchCount cbs chunk ≤ j →
      (dispatchFrom cbs chunk i).1.get? j = cbs.get? j := by
  induction cbs with
  | nil => intro i j _; simp [dispatchFrom]
  | cons c rest ih =>
    intro i j hj
    rcases h : c.ifc.onData c.st chunk with ⟨s', res⟩
    cases res with
    | ok =>
      simp only [dispatchCount, h] at hj
      cases j with
      | zero => omega
      | succ j' =>
        simp only [dispatchFrom, h, List.get?_cons_succ]
        exact ih (i + 1) j' (by omega)
    | err e =>
      simp only [dispatchCount, h] at hj
      cases j with
      | zero => omega
      | succ j' => simp [dispatchFrom, h]
    | panicked p =>
      simp only [dispatchCount, h] at hj
      cases j with
      | zero => omega
      | succ j' => simp [dispatchFrom, h]

/-- C2: for every chunk dispatched through an engine's callback list, the
invocation trace is exactly the callback indices `0, 1, ..., m-1` in order,
each invoked once with a byte-for-byte identical view of the chunk, where
`m` counts the callbacks up to and including the first failing one; when no
callback fails every registered callback is invoked, and the callbacks past
the first failing one are left entirely untouched. -/
theorem dispatch_exactly_once_in_order {κ : Type} (cbs : List (CbInst κ)) (chunk : Chunk) :
    (dispatch cbs chunk).2.2 =
      (List.range (dispatchCount cbs chunk)).map (fun i => (i, chunk)) ∧
    dispatchCount cbs chunk ≤ cbs.length ∧
    ((dispatch cbs chunk).2.1 = none → dispatchCount cbs chunk = cbs.length) ∧
    (∀ j, dispatchCount cbs chunk ≤ j → (dispatch cbs chunk).1.get? j = cbs.get? j) := by
  refine ⟨?_, dispatchCount_le cbs chunk, fun h => dispatchFrom_none_count cbs chunk 0 h,
    fun j hj => dispatchFrom_untouched cbs chunk 0 j hj⟩
  simpa [dispatch] using dispatchFrom_trace cbs chunk 0

/-- Witness for C2 at a concrete callback list and chunk. -/
theorem dispatch_exactly_once_in_order_witness :
    (dispatch [⟨recorder, ([] : List Chunk)⟩, ⟨recorder, [[9]]⟩] [1, 2]).2.2 =
      (List.range (dispatchCount [⟨recorder, ([] : List Chunk)⟩, ⟨recorder, [[9]]⟩] [1, 2])).map
        (fun i => (i, [1, 2])) :=
  (dispatch_exactly_once_in_order [⟨recorder, []⟩, ⟨recorder, [[9]]⟩] [1, 2]).1

/-- C3: a panic escaping an observer's `OnData` is caught at the dispatch
boundary and converted to a normal error prefixed `"callback panic: "`,
whose message is the payload's error message, the payload string verbatim,
or `"unknown panic"` for any other payload. -/
theorem dispatch_panic_isolated {κ : Type} (cbs₁ rest : List (CbInst κ)) (c : CbInst κ)
    (chunk : Chunk) (s' : κ) (p : PanicPayload)
    (hok : ∀ inst ∈ cbs₁, (inst.ifc.onData inst.st chunk).2 = .ok)
    (hpanic : c.ifc.onData c.st chunk = (s', .panicked p)) :
    (dispatch (cbs₁ ++ c :: rest) chunk).2.1 =
      some (.errNew ("callback panic: " ++ formatPanic p)) ∧
    (∀ e : GoErr, formatPanic (.errVal e) = e.message) ∧
    (∀ s : String, formatPanic (.strVal s) = s) ∧
    formatPanic .otherVal = "unknown panic" := by
  refine ⟨?_, fun e => rfl, fun s => rfl, rfl⟩
  rw [dispatch, dispatchFrom_append_ok cbs₁ (c :: rest) chunk hok 0]
  simp [dispatchFrom, hpanic]

/-- Witness for C3: a recorder followed by a string-panicking callback. -/
theorem dispatch_panic_isolated_witness :
    (∀ inst ∈ [CbInst.mk recorder ([] : List Chunk)],
      (inst.ifc.onData inst.st [1]).2 = CbRes.ok) ∧
    (dispatch ([⟨recorder, ([] : List Chunk)⟩] ++
        ⟨panicker (.strVal "bad state"), []⟩ :: []) [1]).2.1 =
      some (.errNew ("callback panic: " ++ formatPanic (.strVal "bad state"))) := by
  refine ⟨?_, ?_⟩
  · intro inst hinst
    simp only [List.mem_singleton] at hinst
    subst hinst
    rfl
  · exact (dispatch_panic_isolated [⟨recorder, []⟩] [] ⟨panicker (.strVal "bad state"), []⟩
      [1] [] (.strVal "bad state")
      (by intro inst hinst; simp only [List.mem_singleton] at hinst; subst hinst; rfl)
      rfl).1

/-- C1 (amended): once the sticky slot holds an error, every subsequent
operation that passes its capability check returns that identical error
value, delivers no bytes, leaves the engine (hence the underlying stream
and every observer) untouched, and performs no dispatch. -/
theorem sticky_error_shortcircuit {σ κ σ' κ' : Type}
    (br : BufferedReader σ κ) (bw : BufferedWriter σ' κ')
    (e e' : GoErr) (plen : Nat) (off off' : Int) (p : Chunk)
    (hr : br.err = some e) (hw : bw.err = some e') :
    br.Read plen = ⟨br, [], some e, []⟩ ∧
    (br.src.readAt.isSome → br.ReadAt plen off = ⟨br, [], some e, []⟩) ∧
    bw.Write p = ⟨bw, 0, some e', []⟩ ∧
    bw.Flush = (bw, some e') ∧
    (bw.dst.writeAt.isSome → bw.WriteAt p off' = ⟨bw, 0, some e', []⟩) := by
  refine ⟨?_, ?_, ?_, ?_, ?_⟩
  · simp [BufferedReader.Read, hr]
  · intro hAt
    rcases Option.isSome_iff_exists.mp hAt with ⟨ra, hra⟩
    simp [BufferedReader.ReadAt, hra, hr]
  · simp [BufferedWriter.Write, hw]
  · simp [BufferedWriter.Flush, hw]
  · intro hAt
    rcases Option.isSome_iff_exists.mp hAt with ⟨wa, hwa⟩
    simp [BufferedWriter.WriteAt, hwa, hw]

/-- Fixture: a read engine whose sticky slot is already set (the state the
engine is in right after a dispatch failure). -/
def stickyReader : BufferedReader Unit Unit :=
  { src := { read := fun s _ => (s, [], some .eof), readAt := none }
    srcSt := (), buf := ⟨[], 32 * 1024, none⟩, callbacks := []
    err := some (.errNew "cb fail") }

/-- Fixture: a write engine whose sticky slot is already set. -/
def stickyWriter : BufferedWriter Unit Unit :=
  { dst := { write := fun s p => (s, p.length, none), writeAt := none, close := none }
    dstSt := (), buf := ⟨[], 32 * 1024, none⟩, callbacks := []
    err := some (.errNew "wcb fail"), closed := false }

/-- Witness for C1 (amended) at concrete sticky engines. -/
theorem sticky_error_shortcircuit_witness :
    stickyReader.err = some (.errNew "cb fail") ∧
    stickyWriter.err = some (.errNew "wcb fail") ∧
    stickyReader.Read 4 = ⟨stickyReader, [], some (.errNew "cb fail"), []⟩ ∧
    stickyWriter.Flush = (stickyWriter, some (.errNew "wcb fail")) :=
  ⟨rfl, rfl,
    (sticky_error_shortcircuit stickyReader stickyWriter _ _ 4 0 0 [1] rfl rfl).1,
    (sticky_error_shortcircuit stickyReader stickyWriter _ _ 4 0 0 [1] rfl rfl).2.2.2.1⟩

/-- Fixture for the C1 counterexample: a read engine over a source that
fails with `"boom"` once and then delivers the byte `7`. -/
def c1Eng : BufferedReader (List (Chunk × Option GoErr)) (List Chunk) :=
  NewReader scriptedSource [([], some (.errNew "boom")), ([7], none)] [⟨recorder, []⟩]

/-- C1 counterexample: the first read returns the transport error `"boom"`,
yet the sticky slot stays empty and the very next read reaches the source
again (it delivers `[7]`), returns no error, and dispatches to the observer
— so an operation after an error-returning operation performed I/O and
observer dispatch, and did not return the identical error. -/
theorem sticky_error_shortcircuit_counterexample :
    (c1Eng.Read 5).err = some (.errNew "boom") ∧
    (c1Eng.Read 5).eng.err = none ∧
    ((c1Eng.Read 5).eng.Read 5).err = none ∧
    ((c1Eng.Read 5).eng.Read 5).data = [7] ∧
    ((c1Eng.Read 5).eng.Read 5).trace = [(0, [7])] := by
  decide

/-- C7: positional access on an engine whose stream lacks the capability
fails immediately with the `"not supported"` error, returns zero bytes, and
leaves the engine — stream state and observers included — untouched, with
no dispatch. -/
theorem positional_unsupported {σ κ σ' κ' : Type} (br : BufferedReader σ κ)
    (bw : BufferedWriter σ' κ') (plen : Nat) (p : Chunk) (off off' : Int)
    (hr : br.src.readAt = none) (hw : bw.dst.writeAt = none) :
    br.ReadAt plen off = ⟨br, [], some (.errNew "ReadAt not supported"), []⟩ ∧
    bw.WriteAt p off' = ⟨bw, 0, some (.errNew "WriteAt not supported"), []⟩ := by
  constructor
  · simp [BufferedReader.ReadAt, hr]
  · simp [BufferedWriter.WriteAt, hw]

/-- Witness for C7 at concrete engines without positional capability. -/
theorem positional_unsupported_witness :
    c1Eng.src.readAt = none ∧
    c1Eng.ReadAt 3 0 = ⟨c1Eng, [], some (.errNew "ReadAt not supported"), []⟩ :=
  ⟨rfl, (positional_unsupported c1Eng (NewWriter failingSink 0 ([] : List (CbInst Unit)))
    3 [1] 0 0 rfl rfl).1⟩

/-- C5: the facade returns the original stream itself when no callbacks are
given (identity, no wrapping engine, no buffer), and a buffered engine
wrapping the stream otherwise. -/
theorem facade_zero_callbacks_identity {σ κ σ' κ' : Type} (r : SourceI σ) (s : σ)
    (w : SinkI σ') (ws : σ') (cbs : List (CbInst κ)) (wcbs : List (CbInst κ')) :
    Reader r s ([] : List (CbInst κ)) = .plain r s ∧
    Writer w ws ([] : List (CbInst κ')) = .plain w ws ∧
    (cbs ≠ [] → Reader r s cbs = .wrapped (NewReader r s cbs)) ∧
    (wcbs ≠ [] → Writer w ws wcbs = .wrapped (NewWriter w ws wcbs)) := by
  refine ⟨rfl, rfl, fun h => ?_, fun h => ?_⟩
  · simp [Reader, List.length_eq_zero, h]
  · simp [Writer, List.length_eq_zero, h]

/-- Witness for C5: one callback produces the wrapping engine. -/
theorem facade_zero_callbacks_identity_witness :
    ([⟨recorder, ([] : List Chunk)⟩] : List (CbInst (List Chunk))) ≠ [] ∧
    Reader scriptedSource [] [⟨recorder, ([] : List Chunk)⟩] =
      .wrapped (NewReader scriptedSource [] [⟨recorder, []⟩]) :=
  ⟨List.cons_ne_nil _ _,
    (facade_zero_callbacks_identity scriptedSource [] failingSink 0
      [⟨recorder, []⟩] ([] : List (CbInst Unit))).2.2.1 (List.cons_ne_nil _ _)⟩

/-- `Flush` never changes the `closed` flag. -/
lemma Flush_closed {σ κ : Type} (bw : BufferedWriter σ κ) :
    (bw.Flush).1.closed = bw.closed := by
  cases h : bw.err with
  | some e => simp [BufferedWriter.Flush, h]
  | none =>
    rcases hf : bufioFlush bw.dst bw.buf bw.dstSt with ⟨b', s', ferr⟩
    simp [BufferedWriter.Flush, h, hf]

/-- `Flush` never changes the underlying sink handle (its capabilities). -/
lemma Flush_dst {σ κ : Type} (bw : BufferedWriter σ κ) :
    (bw.Flush).1.dst = bw.dst := by
  cases h : bw.err with
  | some e => simp [BufferedWriter.Flush, h]
  | none =>
    rcases hf : bufioFlush bw.dst bw.buf bw.dstSt with ⟨b', s', ferr⟩
    simp [BufferedWriter.Flush, h, hf]

/-- C6: only the first `Close` performs work — a flush whose failure is
returned without attempting the sink's close, then a close of the sink when
it is closable, propagating its error — and after it the engine is marked
closed, so every subsequent `Close` (on this or any closed engine) is a
no-op returning no error regardless of the first call's outcome. -/
theorem close_idempotent {σ κ : Type} (bw : BufferedWriter σ κ) (h : bw.closed = false) :
    (bw.Close).eng.closed = true ∧
    (bw.Close).eng.Close = ⟨(bw.Close).eng, none, false⟩ ∧
    (∀ bw2 : BufferedWriter σ κ, bw2.closed = true → bw2.Close = ⟨bw2, none, false⟩) ∧
    (∀ e, (BufferedWriter.Flush { bw with closed := true }).2 = some e →
      (bw.Close).err = some e ∧ (bw.Close).closedUnderlying = false ∧
      (bw.Close).eng = (BufferedWriter.Flush { bw with closed := true }).1) ∧
    ((BufferedWriter.Flush { bw with closed := true }).2 = none →
      match bw.dst.close with
      | some cl =>
        (bw.Close).err =
          (cl ((BufferedWriter.Flush { bw with closed := true }).1.dstSt)).2 ∧
        (bw.Close).closedUnderlying = true
      | none => (bw.Close).err = none ∧ (bw.Close).closedUnderlying = false) := by
  have hclosed2 : ∀ bw2 : BufferedWriter σ κ, bw2.closed = true →
      bw2.Close = ⟨bw2, none, false⟩ := by
    intro bw2 h2
    simp [BufferedWriter.Close, h2]
  have hfc := Flush_closed ({ bw with closed := true })
  have hfd := Flush_dst ({ bw with closed := true })
  rcases hf : BufferedWriter.Flush { bw with closed := true } with ⟨bw1, ferr⟩
  rw [hf] at hfc hfd
  cases ferr with
  | some e =>
    have hcl : bw.Close = ⟨bw1, some e, false⟩ := by
      simp [BufferedWriter.Close, h, hf]
    refine ⟨by rw [hcl]; exact hfc, ?_, hclosed2, ?_, ?_⟩
    · rw [hcl]
      exact hclosed2 bw1 hfc
    · intro e' he'
      rw [hcl]
      simp only [Prod.mk.injEq] at he'
      simp [← he']
    · intro hnone
      simp at hnone
  | none =>
    cases hdc : bw1.dst.close with
    | some cl =>
      rcases hcall : cl bw1.dstSt with ⟨s', cerr⟩
      have hcl : bw.Close = ⟨{ bw1 with dstSt := s' }, cerr, true⟩ := by
        simp [BufferedWriter.Close, h, hf, hdc, hcall]
      have hbwdst : bw.dst.close = some cl := by rw [← hfd, hdc]
      refine ⟨by rw [hcl]; exact hfc, ?_, hclosed2, ?_, ?_⟩
      · rw [hcl]
        exact hclosed2 _ hfc
      · intro e' he'
        simp at he'
      · intro _
        rw [hbwdst]
        simp [hcl, hcall]
    | none =>
      have hcl : bw.Close = ⟨bw1, none, false⟩ := by
        simp [BufferedWriter.Close, h, hf, hdc]
      have hbwdst : bw.dst.close = none := by rw [← hfd, hdc]
      refine ⟨by rw [hcl]; exact hfc, ?_, hclosed2, ?_, ?_⟩
      · rw [hcl]
        exact hclosed2 bw1 hfc
      · intro e' he'
        simp at he'
      · intro _
        rw [hbwdst, hcl]
        exact ⟨rfl, rfl⟩

/-- Witness for C6 at a concrete engine over a closable sink. -/
theorem close_idempotent_witness :
    (NewWriter closableSink 0 ([] : List (CbInst Unit))).closed = false ∧
    ((NewWriter closableSink 0 ([] : List (CbInst Unit))).Close).eng.Close =
      ⟨((NewWriter closableSink 0 ([] : List (CbInst Unit))).Close).eng, none, false⟩ :=
  ⟨rfl, (close_idempotent (NewWriter closableSink 0 []) rfl).2.1⟩

/-- C4 (amended): the mirror observer is prepended, so the mirror write
happens before the other observers see each chunk; when the mirror fails on
a chunk its own sticky-error state is established, but dispatch halts at
it: the later observers do not receive that chunk (their instances are
untouched), and since the failure becomes the engine's sticky error, no
observer receives any subsequent chunk either. -/
theorem tee_mirror_first_and_blocking {σ σw κ : Type} (r : SourceI σ) (rs : σ)
    (w : SinkI σw) (ws : σw) (cbs : List (CbInst κ)) (chunk : Chunk)
    (s' : σw) (n : Nat) (e : GoErr)
    (hfail : w.write ws chunk = (s', n, some e)) :
    TeeReader r rs w ws cbs =
      .wrapped (NewReader r rs (⟨teeWriterCallback w, .inl ⟨ws, none⟩⟩ :: cbs.map liftInst)) ∧
    dispatch (⟨teeWriterCallback w, .inl ⟨ws, none⟩⟩ :: cbs.map liftInst) chunk =
      (⟨teeWriterCallback w, .inl ⟨s', some e⟩⟩ :: cbs.map liftInst, some e, [(0, chunk)]) ∧
    (∀ (br : BufferedReader σ (TeeSt σw ⊕ κ)) (plen : Nat), br.err = some e →
      (br.Read plen).trace = [] ∧ (br.Read plen).err = some e) := by
  refine ⟨?_, ?_, ?_⟩
  · simp [TeeReader, Reader]
  · simp [dispatch, dispatchFrom, teeWriterCallback, hfail]
  · intro br plen hbr
    simp [BufferedReader.Read, hbr]

/-- Fixture for the C4 counterexample: a tee over a two-byte source, a sink
that rejects every write, and one caller-supplied recording observer. -/
def c4Ret : ReaderRet (List (Chunk × Option GoErr)) (TeeSt Nat ⊕ List Chunk) :=
  TeeReader scriptedSource [([104, 105], none)] failingSink 0 [⟨recorder, []⟩]

/-- C4 counterexample: the mirror sink fails on the chunk `[104, 105]`; the
chunk is still delivered to the caller, but dispatch halts at the mirror
(trace `[(0, chunk)]` only), the recording observer at index 1 keeps its
initial state (it never sees the chunk), and the next read is cut off by the
engine's sticky error with no dispatch at all — contradicting the claim that
later observers still receive that chunk and subsequent chunks. -/
theorem tee_mirror_first_and_blocking_counterexample :
    match c4Ret with
    | .wrapped br =>
        (br.Read 5).data = [104, 105] ∧
        (br.Read 5).err = some (GoErr.custom 7 "sink failure") ∧
        (br.Read 5).trace = [(0, [104, 105])] ∧
        ((br.Read 5).eng.callbacks.get? 1).map CbInst.st =
          some (.inr ([] : List Chunk)) ∧
        ((br.Read 5).eng.Read 5).trace = [] ∧
        ((br.Read 5).eng.Read 5).err = some (GoErr.custom 7 "sink failure")
    | .plain _ _ => False := by
  refine ⟨rfl, rfl, rfl, ?_, rfl, rfl⟩
  rfl

/-- Witness for C4 (amended) at the concrete failing mirror sink. -/
theorem tee_mirror_first_and_blocking_witness :
    failingSink.write 0 [104, 105] = (1, 0, some (GoErr.custom 7 "sink failure")) ∧
    dispatch (⟨teeWriterCallback failingSink, .inl ⟨0, none⟩⟩ ::
        [CbInst.mk recorder ([] : List Chunk)].map liftInst) [104, 105] =
      (⟨teeWriterCallback failingSink, .inl ⟨1, some (GoErr.custom 7 "sink failure")⟩⟩ ::
        [CbInst.mk recorder ([] : List Chunk)].map liftInst,
        some (GoErr.custom 7 "sink failure"), [(0, [104, 105])]) :=
  ⟨rfl, (tee_mirror_first_and_blocking scriptedSource [([104, 105], none)] failingSink 0
    [⟨recorder, []⟩] [104, 105] 1 0 (GoErr.custom 7 "sink failure") rfl).2.1⟩

/-- When `bufio.Reader.Read` reports an underlying error, it clears its
cached error, so the next read reaches the source again. -/
lemma bufioRead_err_cleared {σ : Type} (rd : SourceI σ) (b : BufioR) (s : σ)
    (plen : Nat) (e : GoErr) (h : (bufioRead rd b s plen).2.2.2 = some e) :
    (bufioRead rd b s plen).1.err = none := by
  by_cases h0 : plen = 0
  · by_cases h1 : 0 < b.contents.length
    · simp [bufioRead, h0, h1] at h
    · simp [bufioRead, h0, h1]
  · by_cases h2 : b.contents.length = 0
    · by_cases h3 : b.err.isSome
      · simp [bufioRead, h0, h2, h3]
      · by_cases h4 : b.size ≤ plen
        · rcases hread : rd.read s plen with ⟨s', data, e'⟩
          simp [bufioRead, h0, h2, h3, h4, hread]
        · rcases hread : rd.read s b.size with ⟨s', data, e'⟩
          by_cases h5 : data.length = 0
          · simp [bufioRead, h0, h2, h3, h4, hread, h5]
          · simp [bufioRead, h0, h2, h3, h4, hread, h5] at h
    · simp [bufioRead, h0, h2] at h

/-- A `bufio.Writer` whose error is cached returns it from `Write`
immediately: no sink call, no state change, no bytes accepted. -/
lemma bufioWriteLoop_cached {σ : Type} (wr : SinkI σ) (fuel : Nat) (b : BufioW)
    (s : σ) (p : Chunk) (nn : Nat) (e : GoErr) (h : b.err = some e) :
    bufioWriteLoop wr fuel b s p nn = (b, s, nn, some e) := by
  cases fuel with
  | zero => simp [bufioWriteLoop, h]
  | succ f => simp [bufioWriteLoop, h]

/-- When the `bufio.Writer` write loop reports an error, that error is (and
stays) cached in the writer it returns. -/
lemma bufioWriteLoop_err_cached {σ : Type} (wr : SinkI σ) (fuel : Nat) :
    ∀ (b : BufioW) (s : σ) (p : Chunk) (nn : Nat) (e : GoErr),
      (bufioWriteLoop wr fuel b s p nn).2.2.2 = some e →
      (bufioWriteLoop wr fuel b s p nn).1.err = some e := by
  induction fuel with
  | zero =>
    intro b s p nn e h
    simp only [bufioWriteLoop] at h ⊢
    exact h
  | succ f ih =>
    intro b s p nn e h
    by_cases hc : b.size - b.contents.length < p.length ∧ b.err = none
    · by_cases hb : b.contents.length = 0
      · rcases hw : wr.write s p with ⟨s', n, werr⟩
        simp only [bufioWriteLoop, if_pos hc, if_pos hb, hw] at h ⊢
        exact ih _ _ _ _ _ h
      · rcases hf : bufioFlush wr { b with contents := b.contents ++ p.take (min (b.size - b.contents.length) p.length) } s with ⟨b2, s2, ferr⟩
        simp only [bufioWriteLoop, if_pos hc, if_neg hb, hf] at h ⊢
        exact ih _ _ _ _ _ h
    · simp only [bufioWriteLoop] at h ⊢
      rw [if_neg hc] at h ⊢
      cases hbe : b.err with
      | some e2 =>
        simp only [hbe] at h ⊢
        exact h
      | none =>
        simp only [hbe] at h
        simp at h

/-- Anatomy of a sequential read on an empty sticky slot whose dispatch
does not fail (no callbacks, a zero-length transfer, or a successful
dispatch): the engine delivers the bytes the buffered read produced,
returns the buffered read's (transport) error together with them, and
leaves the sticky slot empty. -/
lemma Read_dispatch_ok {σ κ : Type} (br : BufferedReader σ κ) (plen : Nat)
    (b' : BufioR) (s' : σ) (data : Chunk) (ioErr : Option GoErr)
    (hbr : br.err = none)
    (hbuf : bufioRead br.src br.buf br.srcSt plen = (b', s', data, ioErr))
    (hd : (dispatch br.callbacks data).2.1 = none) :
    (br.Read plen).data = data ∧ (br.Read plen).err = ioErr ∧
    (br.Read plen).eng.err = none := by
  rcases hdisp : dispatch br.callbacks data with ⟨cbs', oerr, tr⟩
  rw [hdisp] at hd
  have hoerr : oerr = none := hd
  subst hoerr
  by_cases hg : 0 < data.length ∧ 0 < br.callbacks.length
  · have hread : br.Read plen =
        ⟨{ br with buf := b', srcSt := s', callbacks := cbs' }, data, ioErr, tr⟩ := by
      simp only [BufferedReader.Read, hbr, hbuf]
      rw [if_pos hg]
      simp [hdisp]
    rw [hread]
    exact ⟨rfl, rfl, hbr⟩
  · have hread : br.Read plen = ⟨{ br with buf := b', srcSt := s' }, data, ioErr, []⟩ := by
      simp only [BufferedReader.Read, hbr, hbuf]
      rw [if_neg hg]
    rw [hread]
    exact ⟨rfl, rfl, hbr⟩

/-- Anatomy of a sequential read whose dispatch fails: the bytes already
read are still delivered, and the dispatch error — never the transport
error — is both returned and stored in the sticky slot. -/
lemma Read_dispatch_err {σ κ : Type} (br : BufferedReader σ κ) (plen : Nat)
    (b' : BufioR) (s' : σ) (data : Chunk) (ioErr : Option GoErr) (cbErr : GoErr)
    (hbr : br.err = none)
    (hbuf : bufioRead br.src br.buf br.srcSt plen = (b', s', data, ioErr))
    (hlen : 0 < data.length)
    (hd : (dispatch br.callbacks data).2.1 = some cbErr) :
    (br.Read plen).data = data ∧ (br.Read plen).err = some cbErr ∧
    (br.Read plen).eng.err = some cbErr := by
  rcases hdisp : dispatch br.callbacks data with ⟨cbs', oerr, tr⟩
  rw [hdisp] at hd
  have hoerr : oerr = some cbErr := hd
  subst hoerr
  have hcb : 0 < br.callbacks.length := by
    rcases hcbs : br.callbacks with _ | ⟨c, rest⟩
    · exfalso
      rw [hcbs] at hdisp
      have hd0 : (dispatch ([] : List (CbInst κ)) data).2.1 = none := rfl
      rw [hdisp] at hd0
      simp at hd0
    · simp
  have hread : br.Read plen =
      ⟨{ br with buf := b', srcSt := s', callbacks := cbs', err := some cbErr },
        data, some cbErr, tr⟩ := by
    simp only [BufferedReader.Read, hbr, hbuf]
    rw [if_pos ⟨hlen, hcb⟩]
    simp [hdisp]
  rw [hread]
  exact ⟨rfl, rfl, rfl⟩

/-- Anatomy of a sequential write on an empty sticky slot whose dispatch
does not fail: the engine reports the byte count the buffered write
accepted, returns the buffered write's (transport) error together with it,
and leaves the sticky slot empty. -/
lemma Write_dispatch_ok {σ κ : Type} (bw : BufferedWriter σ κ) (p : Chunk)
    (b' : BufioW) (s' : σ) (n : Nat) (werr : Option GoErr)
    (hbw : bw.err = none)
    (hwbuf : bufioWrite bw.dst bw.buf bw.dstSt p = (b', s', n, werr))
    (hd : (dispatch bw.callbacks (p.take n)).2.1 = none) :
    (bw.Write p).n = n ∧ (bw.Write p).err = werr ∧ (bw.Write p).eng.err = none := by
  rcases hdisp : dispatch bw.callbacks (p.take n) with ⟨cbs', oerr, tr⟩
  rw [hdisp] at hd
  have hoerr : oerr = none := hd
  subst hoerr
  by_cases hg : 0 < n ∧ 0 < bw.callbacks.length
  · have hwrite : bw.Write p =
        ⟨{ bw with buf := b', dstSt := s', callbacks := cbs' }, n, werr, tr⟩ := by
      simp only [BufferedWriter.Write, hbw, hwbuf]
      rw [if_pos hg]
      simp [hdisp]
    rw [hwrite]
    exact ⟨rfl, rfl, hbw⟩
  · have hwrite : bw.Write p = ⟨{ bw with buf := b', dstSt := s' }, n, werr, []⟩ := by
      simp only [BufferedWriter.Write, hbw, hwbuf]
      rw [if_neg hg]
    rw [hwrite]
    exact ⟨rfl, rfl, hbw⟩

/-- Anatomy of a sequential write whose dispatch fails: the accepted byte
count is still reported, and the dispatch error — never the transport
error — is both returned and stored in the sticky slot. -/
lemma Write_dispatch_err {σ κ : Type} (bw : BufferedWriter σ κ) (p : Chunk)
    (b' : BufioW) (s' : σ) (n : Nat) (werr : Option GoErr) (cbErr : GoErr)
    (hbw : bw.err = none)
    (hwbuf : bufioWrite bw.dst bw.buf bw.dstSt p = (b', s', n, werr))
    (hn : 0 < n)
    (hd : (dispatch bw.callbacks (p.take n)).2.1 = some cbErr) :
    (bw.Write p).n = n ∧ (bw.Write p).err = some cbErr ∧
    (bw.Write p).eng.err = some cbErr := by
  rcases hdisp : dispatch bw.callbacks (p.take n) with ⟨cbs', oerr, tr⟩
  rw [hdisp] at hd
  have hoerr : oerr = some cbErr := hd
  subst hoerr
  have hcb : 0 < bw.callbacks.length := by
    rcases hcbs : bw.callbacks with _ | ⟨c, rest⟩
    · exfalso
      rw [hcbs] at hdisp
      have hd0 : (dispatch ([] : List (CbInst κ)) (p.take n)).2.1 = none := rfl
      rw [hdisp] at hd0
      simp at hd0
    · simp
  have hwrite : bw.Write p =
      ⟨{ bw with buf := b', dstSt := s', callbacks := cbs', err := some cbErr },
        n, some cbErr, tr⟩ := by
    simp only [BufferedWriter.Write, hbw, hwbuf]
    rw [if_pos ⟨hn, hcb⟩]
    simp [hdisp]
  rw [hwrite]
  exact ⟨rfl, rfl, rfl⟩

/-- C8 (amended): a transport error from a sequential read or write is
never stored in the engine's sticky slot. Whenever the dispatch of the
transferred bytes does not itself fail, the engine returns the transport
error together with the byte count and the slot stays empty; when dispatch
fails, the slot receives exactly the dispatch error (the bytes are still
delivered). The internal buffered reader clears the error it reported, so
the next sequential read reaches the source again, while the internal
buffered writer caches its error permanently and returns it without
touching the sink again. -/
theorem transport_error_not_sticky {σ κ σ2 κ2 : Type}
    (br : BufferedReader σ κ) (bw : BufferedWriter σ2 κ2) (plen : Nat) (p : Chunk)
    (b' : BufioR) (s' : σ) (data : Chunk) (ioErr : Option GoErr)
    (wb' : BufioW) (ws' : σ2) (n : Nat) (werr : Option GoErr)
    (rd : SourceI σ) (rb : BufioR) (rs : σ) (e : GoErr)
    (wr : SinkI σ2) (fuel : Nat) (bwb : BufioW) (wss : σ2) (q : Chunk) (nn : Nat)
    (hbr : br.err = none) (hbw : bw.err = none)
    (hbuf : bufioRead br.src br.buf br.srcSt plen = (b', s', data, ioErr))
    (hwbuf : bufioWrite bw.dst bw.buf bw.dstSt p = (wb', ws', n, werr)) :
    ((dispatch br.callbacks data).2.1 = none →
      (br.Read plen).data = data ∧ (br.Read plen).err = ioErr ∧
      (br.Read plen).eng.err = none) ∧
    (∀ cbErr, 0 < data.length → (dispatch br.callbacks data).2.1 = some cbErr →
      (br.Read plen).data = data ∧ (br.Read plen).err = some cbErr ∧
      (br.Read plen).eng.err = some cbErr) ∧
    ((dispatch bw.callbacks (p.take n)).2.1 = none →
      (bw.Write p).n = n ∧ (bw.Write p).err = werr ∧ (bw.Write p).eng.err = none) ∧
    (∀ cbErr, 0 < n → (dispatch bw.callbacks (p.take n)).2.1 = some cbErr →
      (bw.Write p).n = n ∧ (bw.Write p).err = some cbErr ∧
      (bw.Write p).eng.err = some cbErr) ∧
    ((bufioRead rd rb rs plen).2.2.2 = some e → (bufioRead rd rb rs plen).1.err = none) ∧
    (bwb.err = some e → bufioWriteLoop wr fuel bwb wss q nn = (bwb, wss, nn, some e)) ∧
    ((bufioWriteLoop wr fuel bwb wss q nn).2.2.2 = some e →
      (bufioWriteLoop wr fuel bwb wss q nn).1.err = some e) :=
  ⟨fun hd => Read_dispatch_ok br plen b' s' data ioErr hbr hbuf hd,
   fun cbErr hlen hd => Read_dispatch_err br plen b' s' data ioErr cbErr hbr hbuf hlen hd,
   fun hd => Write_dispatch_ok bw p wb' ws' n werr hbw hwbuf hd,
   fun cbErr hn hd => Write_dispatch_err bw p wb' ws' n werr cbErr hbw hwbuf hn hd,
   bufioRead_err_cleared rd rb rs plen e,
   fun hb => bufioWriteLoop_cached wr fuel bwb wss q nn e hb,
   bufioWriteLoop_err_cached wr fuel bwb wss q nn e⟩

/-- Fixture for the C8 witness: a read engine whose source delivers the
byte `7` together with `io.EOF` in one call (the large-read path returns
both at once). -/
def c8Reader : BufferedReader (List (Chunk × Option GoErr)) (List Chunk) :=
  NewReader scriptedSource [([7], some .eof)] [⟨recorder, []⟩]

/-- Witness for C8 (amended): a 32 KiB read returns the byte `7` together
with the EOF transport error after a successful dispatch to the recorder
(non-empty trace), and the sticky slot stays empty. -/
theorem transport_error_not_sticky_witness :
    c8Reader.err = none ∧ (c8Reader.Read 32768).trace = [(0, [7])] ∧
    ((c8Reader.Read 32768).data = [7] ∧ (c8Reader.Read 32768).err = some .eof ∧
      (c8Reader.Read 32768).eng.err = none) :=
  ⟨rfl, by decide,
    (transport_error_not_sticky c8Reader (NewWriter failingSink 0 ([] : List (CbInst Unit)))
      32768 [] ⟨[], 32 * 1024, none⟩ [] [7] (some .eof) ⟨[], 32 * 1024, none⟩ 0 0 none
      scriptedSource ⟨[], 8, none⟩ [] .eof failingSink 0 ⟨[], 8, none⟩ 0 [] 0
      rfl rfl rfl rfl).1 (by decide)⟩

/-- One loop step of `bufio.Writer.Write` for a large write into an empty
buffer whose sink rejects the write outright: the error is cached and the
loop stops with zero bytes accepted. -/
lemma bufioWriteLoop_direct_fail {σ : Type} (wr : SinkI σ) (fuel : Nat) (b : BufioW)
    (s s' : σ) (p : Chunk) (nn : Nat) (e : GoErr)
    (hcond : b.size - b.contents.length < p.length) (hbe : b.err = none)
    (hempty : b.contents.length = 0) (hw : wr.write s p = (s', 0, some e)) :
    bufioWriteLoop wr (fuel + 1) b s p nn = ({ b with err := some e }, s', nn, some e) := by
  simp only [bufioWriteLoop, if_pos (And.intro hcond hbe), if_pos hempty, hw,
    List.drop_zero, Nat.add_zero]
  exact bufioWriteLoop_cached wr fuel _ s' p nn e rfl

/-- Fixture for the C8 counterexample: a write engine over the rejecting
sink, with no callbacks. -/
def c8W : BufferedWriter Nat Unit := NewWriter failingSink 0 []

/-- A sequential write on an engine with an empty sticky slot whose
internal buffered write accepts zero bytes: the engine updates its buffer
and sink state, dispatches nothing, and returns the buffered write's
error. -/
lemma Write_of_bufio {σ κ : Type} (bw : BufferedWriter σ κ) (p : Chunk) (b' : BufioW)
    (s' : σ) (werr : Option GoErr) (h : bw.err = none)
    (hb : bufioWrite bw.dst bw.buf bw.dstSt p = (b', s', 0, werr)) :
    bw.Write p = ⟨{ bw with buf := b', dstSt := s' }, 0, werr, []⟩ := by
  simp only [BufferedWriter.Write, h, hb]
  simp

/-- The first (oversized) write on `c8W`: the sink rejects it; the engine
returns the sink error with zero bytes, its sticky slot stays empty, but
the internal buffered writer now caches the error. -/
lemma c8W_first_write :
    c8W.Write (List.replicate 32769 0) =
      ⟨{ dst := failingSink, dstSt := 1,
          buf := ⟨[], 32 * 1024, some (GoErr.custom 7 "sink failure")⟩,
          callbacks := [], err := none, closed := false }, 0,
        some (GoErr.custom 7 "sink failure"), []⟩ := by
  have hlen : (List.replicate 32769 (0 : Nat)).length = 32769 := List.length_replicate _ _
  have hloop : bufioWrite c8W.dst c8W.buf c8W.dstSt (List.replicate 32769 0) =
      (⟨[], 32 * 1024, some (GoErr.custom 7 "sink failure")⟩, 1, 0,
        some (GoErr.custom 7 "sink failure")) := by
    rw [bufioWrite, hlen]
    exact bufioWriteLoop_direct_fail failingSink 32770 c8W.buf 0 1
      (List.replicate 32769 0) 0 (GoErr.custom 7 "sink failure")
      (by rw [hlen]; norm_num [c8W, NewWriter]) rfl rfl rfl
  rw [Write_of_bufio c8W (List.replicate 32769 0) _ _ _ rfl hloop]
  rfl

/-- C8 counterexample: after the sink rejects a 32769-byte sequential
write, the engine's sticky slot is still empty (`eng.err = none`), yet the
next sequential write returns the same sink error without touching the sink
(`dstSt`, the count of sink write calls, stays at 1) — contradicting the
claim that the next sequential call touches the underlying stream again. -/
theorem transport_error_not_sticky_counterexample :
    (c8W.Write (List.replicate 32769 0)).err = some (GoErr.custom 7 "sink failure") ∧
    (c8W.Write (List.replicate 32769 0)).eng.err = none ∧
    (c8W.Write (List.replicate 32769 0)).eng.dstSt = 1 ∧
    ((c8W.Write (List.replicate 32769 0)).eng.Write [1]).err =
      some (GoErr.custom 7 "sink failure") ∧
    ((c8W.Write (List.replicate 32769 0)).eng.Write [1]).eng.dstSt = 1 := by
  rw [c8W_first_write]
  refine ⟨rfl, rfl, rfl, ?_, ?_⟩ <;> decide

/-- An unknown algorithm string makes `NewHashCallback` fall back to a
fresh SHA-256 hash named `"sha256"`. -/
lemma NewHashCallback_unknown (s : String)
    (h1 : s ≠ "md5") (h2 : s ≠ "sha1") (h3 : s ≠ "sha256") (h4 : s ≠ "sha512") :
    NewHashCallback s = ⟨"sha256", GoHash.new .sha256⟩ := by
  unfold NewHashCallback
  split
  · exact absurd rfl h1
  · exact absurd rfl h2
  · exact absurd rfl h3
  · exact absurd rfl h4
  · rfl

/-- Feeding chunks through a `HashCallback` appends their concatenation to
the hash's input and changes nothing else. -/
lemma feedHash_spec (cs : List Chunk) :
    ∀ hc : HashCallback, feedHash hc cs =
      ⟨hc.name, ⟨hc.h.alg, hc.h.written ++ cs.flatten⟩⟩ := by
  induction cs with
  | nil => intro hc; simp [feedHash]
  | cons c cs ih =>
    intro hc
    have step : feedHash hc (c :: cs) = feedHash ⟨hc.name, hc.h.write c⟩ cs := rfl
    rw [step, ih]
    simp [GoHash.write, List.append_assoc]

/-- C9: for every algorithm string other than the four supported ones,
`NewHashCallback` silently falls back to SHA-256: the returned observer is
named `"sha256"`, its digest is the SHA-256 of the observed bytes, and its
`OnData` never reports an error. -/
theorem hash_unknown_falls_back (s : String)
    (h1 : s ≠ "md5") (h2 : s ≠ "sha1") (h3 : s ≠ "sha256") (h4 : s ≠ "sha512") :
    (NewHashCallback s).name = "sha256" ∧
    (∀ cs : List Chunk, (feedHash (NewHashCallback s) cs).Result =
      .digestOf .sha256 cs.flatten) ∧
    (∀ (hc : HashCallback) (chunk : Chunk), (hashCallbackI.onData hc chunk).2 = .ok) := by
  rw [NewHashCallback_unknown s h1 h2 h3 h4]
  refine ⟨rfl, fun cs => ?_, fun hc chunk => rfl⟩
  rw [feedHash_spec cs ⟨"sha256", GoHash.new .sha256⟩]
  simp [HashCallback.Result, GoHash.sum, GoHash.new]

/-- Witness for C9 at the unknown algorithm `"blake3"`. -/
theorem hash_unknown_falls_back_witness :
    ("blake3" ≠ "md5") ∧
    (NewHashCallback "blake3").name = "sha256" ∧
    (feedHash (NewHashCallback "blake3") [[1, 2], [3]]).Result =
      .digestOf .sha256 [1, 2, 3] :=
  ⟨by decide,
    (hash_unknown_falls_back "blake3" (by decide) (by decide) (by decide) (by decide)).1,
    ((hash_unknown_falls_back "blake3" (by decide) (by decide) (by decide)
      (by decide)).2.1 [[1, 2], [3]])⟩

/-- Inserting pairs whose keys all differ from `k` never changes what the
map stores under `k`. -/
lemma goMapGet_foldl_skip (l : List (String × GoVal)) (k : String) (acc : Option GoVal)
    (h : ∀ x ∈ l, x.1 ≠ k) :
    l.foldl (fun acc p => if p.1 = k then some p.2 else acc) acc = acc := by
  induction l generalizing acc with
  | nil => rfl
  | cons a l ih =>
    simp only [List.foldl_cons]
    rw [if_neg (h a (by simp))]
    exact ih _ fun x hx => h x (by simp [hx])

/-- In the Go map built from `l`, the value stored under `k` is the value
of the last inserted pair whose key is `k`. -/
lemma goMapGet_last_write_wins (l₁ l₂ : List (String × GoVal)) (q : String × GoVal)
    (k : String) (hq : q.1 = k) (hl₂ : ∀ x ∈ l₂, x.1 ≠ k) :
    goMapGet (l₁ ++ q :: l₂) k = some q.2 := by
  unfold goMapGet
  rw [List.foldl_append, List.foldl_cons, if_pos hq]
  exact goMapGet_foldl_skip l₂ k _ hl₂

/-- C10: the tee mirror observer is named `"_tee_writer"` with a `nil`
result and sits first in a `TeeReader` engine's callback list, so the
results snapshot starts with the pair `("_tee_writer", nil)` and the map
built from it stores `nil` under `"_tee_writer"` unless a caller-supplied
observer of the same name was inserted later, in which case the last
written value survives. -/
theorem teeReader_results_snapshot {σ σw κ : Type} (r : SourceI σ) (rs : σ)
    (w : SinkI σw) (ws : σw) (cbs : List (CbInst κ)) :
    TeeReader r rs w ws cbs =
      .wrapped (NewReader r rs (⟨teeWriterCallback w, .inl ⟨ws, none⟩⟩ :: cbs.map liftInst)) ∧
    (NewReader r rs (⟨teeWriterCallback w, .inl ⟨ws, none⟩⟩ :: cbs.map liftInst)).Results =
      ("_tee_writer", GoVal.nil) ::
        cbs.map (fun c => (c.ifc.name c.st, c.ifc.result c.st)) ∧
    ((∀ c ∈ cbs, c.ifc.name c.st ≠ "_tee_writer") →
      goMapGet
        (NewReader r rs (⟨teeWriterCallback w, .inl ⟨ws, none⟩⟩ :: cbs.map liftInst)).Results
        "_tee_writer" = some GoVal.nil) ∧
    (∀ (l₁ l₂ : List (String × GoVal)) (q : String × GoVal), q.1 = "_tee_writer" →
      (∀ x ∈ l₂, x.1 ≠ "_tee_writer") →
      goMapGet (l₁ ++ q :: l₂) "_tee_writer" = some q.2) := by
  have hres : (NewReader r rs
      (⟨teeWriterCallback w, .inl ⟨ws, none⟩⟩ :: cbs.map liftInst)).Results =
      ("_tee_writer", GoVal.nil) ::
        cbs.map (fun c => (c.ifc.name c.st, c.ifc.result c.st)) := by
    simp only [BufferedReader.Results, NewReader, List.map_cons, List.map_map]
    rfl
  refine ⟨?_, hres, fun hn => ?_, fun l₁ l₂ q hq hl₂ =>
    goMapGet_last_write_wins l₁ l₂ q "_tee_writer" hq hl₂⟩
  · simp [TeeReader, Reader]
  · rw [hres]
    have := goMapGet_last_write_wins [] (cbs.map fun c => (c.ifc.name c.st, c.ifc.result c.st))
      ("_tee_writer", GoVal.nil) "_tee_writer" rfl ?_
    · simpa using this
    · intro x hx
      rcases List.mem_map.mp hx with ⟨c, hc, hxc⟩
      rw [← hxc]
      exact hn c hc

/-- Witness for C10 at a concrete tee composition with one recorder. -/
theorem teeReader_results_snapshot_witness :
    goMapGet (NewReader scriptedSource [([104, 105], none)]
        (⟨teeWriterCallback failingSink, .inl ⟨0, none⟩⟩ ::
          [CbInst.mk recorder ([] : List Chunk)].map liftInst)).Results
      "_tee_writer" = some GoVal.nil :=
  (teeReader_results_snapshot scriptedSource [([104, 105], none)] failingSink 0
    [⟨recorder, []⟩]).2.2.1 (by
      intro c hc
      simp only [List.mem_singleton] at hc
      subst hc
      decide)

end Streamutil
